import Mathlib

/-!
A verification development for the `cnapi` CampusNet API client
(`cnapi/cnapi.py`).

The XML documents handled by the client are modelled as rose trees
(`Xml`): every element has a tag, an attribute dictionary and an ordered
list of child elements.  `xml.etree.ElementTree.fromstring` is external
library code; its result is modelled as an `Option Xml` input (`some`
for well-formed input, `none` for malformed input, in which case the
library raises a `ParseError`, modelled as `ExtractError.parseError`).
Python dictionary lookup `d[k]` raises `KeyError` on a missing key,
modelled as `ExtractError.keyError k`.  Fallible code returns `Except
ExtractError`; a Python method returning `None` is modelled with
`Option`.
-/

inductive Xml : Type where
  | elem (tag : String) (attrib : List (String × String)) (children : List Xml)

/-- The `.tag` accessor of an `xml.etree.ElementTree.Element`. -/
def Xml.tag : Xml → String
  | .elem t _ _ => t

/-- The `.attrib` accessor of an `Element` (attribute dictionary). -/
def Xml.attrib : Xml → List (String × String)
  | .elem _ a _ => a

/-- The ordered list of direct subelements of an `Element`. -/
def Xml.children : Xml → List Xml
  | .elem _ _ c => c

/-- Error conditions that propagate to the caller as Python exceptions:
`xml.etree.ElementTree.ParseError` and `KeyError`. -/
inductive ExtractError : Type where
  | parseError
  | keyError (key : String)
deriving DecidableEq

/-- Python dictionary lookup `d[k]`: the value when the key is bound,
`KeyError` otherwise.  Attribute dictionaries bind each key at most
once, and `find?` returns the binding of the key when there is one. -/
def dictLookup (d : List (String × String)) (k : String) : Except ExtractError String :=
  match d.find? (fun p => p.1 == k) with
  | some p => Except.ok p.2
  | none => Except.error (ExtractError.keyError k)

/-- Python string slicing `s[-n:]`: the last `n` characters of `s`
(all of `s` when `s` has fewer than `n` characters). -/
def pySliceLast (s : String) (n : Nat) : String :=
  ⟨s.data.drop (s.data.length - n)⟩

/-- `Element.find(t)` for a plain tag name `t`: the first direct child
whose tag is `t`, or `None`. -/
def find_child (x : Xml) (t : String) : Option Xml :=
  x.children.find? (fun c => c.tag == t)

/-- `Element.findall(p)` for a structural path `p` (given as its list of
tag segments): all elements reachable from `x` by following the path
through direct children, in document order. -/
def findall_path : List String → Xml → List Xml
  | [], x => [x]
  | t :: ts, x => (x.children.filter (fun c => c.tag == t)).flatMap (findall_path ts)

/-- A Python list comprehension `[f c for c in l]` where `f` may raise:
maps `f` over `l` left to right, propagating the first raised error. -/
def mapExcept (f : α → Except ExtractError β) : List α → Except ExtractError (List β)
  | [] => Except.ok []
  | a :: as => do
    let b ← f a
    let bs ← mapExcept f as
    return b :: bs

/-- Whether a tag name ends with the literal suffix `"Fault"` (the
spec-side notion of a fault response, stated via list suffixes). -/
def FaultTag (t : String) : Prop :=
  "Fault".data <:+ t.data

instance (t : String) : Decidable (FaultTag t) :=
  inferInstanceAs (Decidable ("Fault".data <:+ t.data))

/-- `Student` record (`cnapi.py`, class `Student`). -/
structure Student : Type where
  first_name : String
  last_name : String
  email : String
deriving DecidableEq

/-- `Course` record (`cnapi.py`, class `Course`). -/
structure Course : Type where
  title : String
  course_number : String
deriving DecidableEq

/-- `ExamResult` record (`cnapi.py`, class `ExamResult`). -/
structure ExamResult : Type where
  course : Course
  ects_points : String
  grade : String
  period : String
  year : String
deriving DecidableEq

/-- `AbstractXmlInfoExtractor._is_response_ok`:
`xml_response.tag[-5:] != 'Fault'`. -/
def AbstractXmlInfoExtractor.is_response_ok (xml_response : Xml) : Bool :=
  pySliceLast xml_response.tag 5 != "Fault"

/-- `AbstractXmlInfoExtractor.extract`, parameterized by the subclass
hook `_extract_information`.  The argument is the result of
`xml.etree.ElementTree.fromstring` on the response text (`none` when
the text is malformed, in which case the parse error propagates). -/
def AbstractXmlInfoExtractor.extract (extract_information : Xml → Except ExtractError α)
    (parsed : Option Xml) : Except ExtractError (Option α) :=
  match parsed with
  | none => Except.error ExtractError.parseError
  | some xml_response =>
    if AbstractXmlInfoExtractor.is_response_ok xml_response then
      (extract_information xml_response).map Option.some
    else
      Except.ok none

/-- `UserInfoExtractor._extract_information`: reads `GivenName`,
`FamilyName`, `Email` from the root element's attribute dictionary. -/
def UserInfoExtractor.extract_information (xml_response : Xml) : Except ExtractError Student := do
  let student_info_xml := xml_response.attrib
  let given ← dictLookup student_info_xml "GivenName"
  let family ← dictLookup student_info_xml "FamilyName"
  let email ← dictLookup student_info_xml "Email"
  return Student.mk given family email

/-- The segments of the structural path
`"EducationProgramme/ExamResults/ExamResult"`. -/
def UserGradesExtractor.grades_path : List String :=
  ["EducationProgramme", "ExamResults", "ExamResult"]

/-- `UserGradesExtractor._map_to_course`. -/
def UserGradesExtractor.map_to_course (course_xml : List (String × String)) :
    Except ExtractError Course := do
  let name ← dictLookup course_xml "Name"
  let code ← dictLookup course_xml "CourseCode"
  return Course.mk name code

/-- `UserGradesExtractor._map_to_exam_results`. -/
def UserGradesExtractor.map_to_exam_results (course_xml : List (String × String)) :
    Except ExtractError ExamResult := do
  let course ← UserGradesExtractor.map_to_course course_xml
  let ects ← dictLookup course_xml "EctsPoints"
  let grade ← dictLookup course_xml "Grade"
  let period ← dictLookup course_xml "Period"
  let year ← dictLookup course_xml "Year"
  return ExamResult.mk course ects grade period year

/-- `UserGradesExtractor._extract_information`: `findall` on the grades
path, then the list comprehension mapping each matched element's
attributes to an `ExamResult`. -/
def UserGradesExtractor.extract_information (xml_response : Xml) :
    Except ExtractError (List ExamResult) :=
  mapExcept (fun course_xml => UserGradesExtractor.map_to_exam_results course_xml.attrib)
    (findall_path UserGradesExtractor.grades_path xml_response)

/-- `Authenticator._is_authenticated`:
`response_text_xml.find('LimitedAccess') is not None`. -/
def Authenticator.is_authenticated (response_text_xml : Xml) : Bool :=
  (find_child response_text_xml "LimitedAccess").isSome

/-- `Authenticator._extract_password_from_response_body`: parse the
response body, then return the `Password` attribute of the
`LimitedAccess` child when `_is_authenticated`, and `None` otherwise. -/
def Authenticator.extract_password_from_response_body (parsed : Option Xml) :
    Except ExtractError (Option String) :=
  match parsed with
  | none => Except.error ExtractError.parseError
  | some response_text_xml =>
    if h : Authenticator.is_authenticated response_text_xml then
      (dictLookup ((find_child response_text_xml "LimitedAccess").get h).attrib
        "Password").map Option.some
    else
      Except.ok none

/-- The mutable state of a `CampusNetApi` facade object. -/
structure CampusNetApi : Type where
  app_name : String
  api_token : String
  student_number : String
  auth_token : Option String
deriving DecidableEq

/-- `CampusNetApi.__init__` with the default `auth_token=None` (the
construction used throughout the module's documented usage). -/
def CampusNetApi.make (app_name api_token student_number : String) : CampusNetApi :=
  CampusNetApi.mk app_name api_token student_number none

/-- `CampusNetApi.is_authenticated`: `self.auth_token is not None`. -/
def CampusNetApi.is_authenticated (api : CampusNetApi) : Bool :=
  api.auth_token.isSome

/-- The public operations of the facade.  `authenticate` carries the
value returned by `_get_auth_token` (the token on success, `None` on
failed authentication), which is determined by the network. -/
inductive ApiOp : Type where
  | authenticate (fetched : Option String)
  | is_authenticated
  | grades
  | user_info
deriving DecidableEq

/-- The state transition of one facade operation: `authenticate`
assigns `self.auth_token = self._get_auth_token(password)`; the other
operations do not write any attribute. -/
def CampusNetApi.step (api : CampusNetApi) (op : ApiOp) : CampusNetApi :=
  match op with
  | ApiOp.authenticate fetched =>
    CampusNetApi.mk api.app_name api.api_token api.student_number fetched
  | _ => api

/-- The authentication result an operation writes, when it writes one. -/
def ApiOp.authResult : ApiOp → Option (Option String)
  | ApiOp.authenticate fetched => some fetched
  | _ => none

/-! ## Helper lemmas -/

theorem drop_length_sub_eq_iff_suffix {α : Type} (l f : List α) (n : Nat)
    (hn : f.length = n) : l.drop (l.length - n) = f ↔ f <:+ l := by
  constructor
  · intro h
    rw [← h]
    exact List.drop_suffix _ l
  · rintro ⟨p, rfl⟩
    have hlen : (p ++ f).length - n = p.length := by
      simp [List.length_append, hn]
    rw [hlen, List.drop_left]

theorem is_response_ok_eq_false_iff (x : Xml) :
    AbstractXmlInfoExtractor.is_response_ok x = false ↔ FaultTag x.tag := by
  unfold AbstractXmlInfoExtractor.is_response_ok FaultTag pySliceLast
  rw [bne_eq_false_iff_eq, String.ext_iff]
  exact drop_length_sub_eq_iff_suffix _ _ 5 rfl

theorem is_response_ok_eq_true_iff (x : Xml) :
    AbstractXmlInfoExtractor.is_response_ok x = true ↔ ¬ FaultTag x.tag := by
  rw [← is_response_ok_eq_false_iff]
  cases AbstractXmlInfoExtractor.is_response_ok x <;> simp

theorem extract_some_eq_ok_none_iff {α : Type} (m : Xml → Except ExtractError α) (x : Xml) :
    AbstractXmlInfoExtractor.extract m (some x) = Except.ok none ↔ FaultTag x.tag := by
  unfold AbstractXmlInfoExtractor.extract
  rcases hb : AbstractXmlInfoExtractor.is_response_ok x with _ | _
  · simp [hb, (is_response_ok_eq_false_iff x).1 hb]
  · have hf := (is_response_ok_eq_true_iff x).1 hb
    simp only [hb, if_true, iff_false_intro hf, iff_false]
    cases hm : m x <;> simp [hm, Except.map]

/-! ## Claim theorems -/

/-- **C1.** For every well-formed XML input, `extract` returns an absent
value iff the root element's tag name ends with the literal suffix
`"Fault"`.  The first conjunct states this for an arbitrary
`_extract_information` mapper — so the result depends only on the root
tag, not on the rest of the document, and a fault response is never
passed to a field mapper — and the remaining conjuncts instantiate it to
the two extractor variants. -/
theorem C1_extract_absent_iff_root_fault {α : Type} (x : Xml)
    (m : Xml → Except ExtractError α) :
    (AbstractXmlInfoExtractor.extract m (some x) = Except.ok none ↔ FaultTag x.tag) ∧
    (AbstractXmlInfoExtractor.extract UserInfoExtractor.extract_information (some x) =
        Except.ok none ↔ FaultTag x.tag) ∧
    (AbstractXmlInfoExtractor.extract UserGradesExtractor.extract_information (some x) =
        Except.ok none ↔ FaultTag x.tag) :=
  ⟨extract_some_eq_ok_none_iff m x, extract_some_eq_ok_none_iff _ x,
    extract_some_eq_ok_none_iff _ x⟩

/-- **C2 counterexample.** The claim that the access token is set only
by a *successful* authentication call and that no operation ever takes
an Authenticated session back to Unauthenticated is false: `authenticate`
assigns whatever `_get_auth_token` returned, so a failed authentication
(fetched result `None`) after a successful one resets `auth_token` to
absent. -/
theorem C2_counterexample_failed_reauth_revokes :
    (CampusNetApi.step (CampusNetApi.make "app" "tok" "s123456")
        (ApiOp.authenticate (some "auth-token"))).is_authenticated = true ∧
    (CampusNetApi.step
        (CampusNetApi.step (CampusNetApi.make "app" "tok" "s123456")
          (ApiOp.authenticate (some "auth-token")))
        (ApiOp.authenticate none)).is_authenticated = false :=
  ⟨rfl, rfl⟩

/-- **C2 (amended).** The access token starts absent; it is changed only
by `authenticate`, which overwrites it with that call's fetched result:
a successful call makes the session Authenticated, but a later failed
call resets the token to absent (so Authenticated → Unauthenticated is
possible via a failed re-authentication); no other operation changes the
token. -/
theorem C2_amended_token_evolution (a t s tok : String) (api : CampusNetApi) (op : ApiOp) :
    (CampusNetApi.make a t s).auth_token = none ∧
    (CampusNetApi.make a t s).is_authenticated = false ∧
    (CampusNetApi.step api op).auth_token = (ApiOp.authResult op).getD api.auth_token ∧
    (CampusNetApi.step api (ApiOp.authenticate (some tok))).is_authenticated = true ∧
    (CampusNetApi.step api (ApiOp.authenticate none)).is_authenticated = false := by
  refine ⟨rfl, rfl, ?_, rfl, rfl⟩
  cases op <;> rfl

/-- **C3.** For every well-formed authentication response,
`_extract_password_from_response_body` returns the `Password` attribute
of the `LimitedAccess` element found by the success check when one is
present, and returns `None` — a normal `Except.ok` return, not an
error — when the root has no `LimitedAccess` child. -/
theorem C3_auth_token_password_or_absent (x la : Xml) (pw : String) :
    (find_child x "LimitedAccess" = some la →
      dictLookup la.attrib "Password" = Except.ok pw →
      Authenticator.extract_password_from_response_body (some x) =
        Except.ok (some pw)) ∧
    ((∀ c ∈ x.children, c.tag ≠ "LimitedAccess") →
      Authenticator.extract_password_from_response_body (some x) = Except.ok none) := by
  constructor
  · intro hf hp
    simp [Authenticator.extract_password_from_response_body,
      Authenticator.is_authenticated, hf, hp, Except.map]
  · intro hn
    have hf : find_child x "LimitedAccess" = none := by
      unfold find_child
      rw [List.find?_eq_none]
      intro c hc
      simp [hn c hc]
    simp [Authenticator.extract_password_from_response_body,
      Authenticator.is_authenticated, hf]

/-- Concrete authentication response with a `LimitedAccess` child. -/
def authDocOk : Xml :=
  Xml.elem "AuthResponse" [] [Xml.elem "LimitedAccess" [("Password", "tok123")] []]

/-- Concrete authentication response without a `LimitedAccess` child. -/
def authDocFail : Xml :=
  Xml.elem "AuthResponse" [] [Xml.elem "AccessDenied" [] []]

/-- **C3 witness.** -/
theorem C3_witness :
    Authenticator.extract_password_from_response_body (some authDocOk) =
      Except.ok (some "tok123") ∧
    Authenticator.extract_password_from_response_body (some authDocFail) =
      Except.ok none :=
  ⟨(C3_auth_token_password_or_absent authDocOk
      (Xml.elem "LimitedAccess" [("Password", "tok123")] []) "tok123").1 rfl rfl,
   (C3_auth_token_password_or_absent authDocFail (Xml.elem "" [] []) "").2
      (by decide)⟩

/-- **C4.** For every well-formed, non-fault profile document whose root
attributes bind `GivenName`, `FamilyName` and `Email`, the profile
extractor returns the `Student` record built from those three attribute
values of the root element. -/
theorem C4_profile_extraction (x : Xml) (a b e : String)
    (hok : ¬ FaultTag x.tag)
    (hg : dictLookup x.attrib "GivenName" = Except.ok a)
    (hf : dictLookup x.attrib "FamilyName" = Except.ok b)
    (he : dictLookup x.attrib "Email" = Except.ok e) :
    AbstractXmlInfoExtractor.extract UserInfoExtractor.extract_information (some x) =
      Except.ok (some (Student.mk a b e)) := by
  have hb : AbstractXmlInfoExtractor.is_response_ok x = true :=
    (is_response_ok_eq_true_iff x).2 hok
  simp [AbstractXmlInfoExtractor.extract, hb, UserInfoExtractor.extract_information,
    hg, hf, he, Except.map]
  rfl

/-- Concrete non-fault profile document. -/
def profileDoc : Xml :=
  Xml.elem "Profile"
    [("GivenName", "A"), ("FamilyName", "B"), ("Email", "c@d.com")] []

/-- **C4 witness.** -/
theorem C4_witness :
    AbstractXmlInfoExtractor.extract UserInfoExtractor.extract_information
      (some profileDoc) = Except.ok (some (Student.mk "A" "B" "c@d.com")) :=
  C4_profile_extraction profileDoc "A" "B" "c@d.com" (by decide) rfl rfl rfl

theorem except_ok_bind {ε α β : Type} (a : α) (f : α → Except ε β) :
    (Except.ok a >>= f : Except ε β) = f a := rfl

theorem except_error_bind {ε α β : Type} (e : ε) (f : α → Except ε β) :
    (Except.error e >>= f : Except ε β) = Except.error e := rfl

theorem mapExcept_cons {α β : Type} (f : α → Except ExtractError β) (a : α) (as : List α) :
    mapExcept f (a :: as) =
      f a >>= fun b => mapExcept f as >>= fun bs => Except.ok (b :: bs) := rfl

theorem mapExcept_ok_spec {α β : Type} (f : α → Except ExtractError β) (l : List α) :
    ∀ (r : List β), mapExcept f l = Except.ok r →
      r.length = l.length ∧
      ∀ (i : Nat) (hi : i < l.length) (hr : i < r.length),
        f (l.get ⟨i, hi⟩) = Except.ok (r.get ⟨i, hr⟩) := by
  induction l with
  | nil =>
    intro r h
    have hr : Except.ok ([] : List β) = Except.ok r := h
    injection hr with hr
    subst hr
    exact ⟨rfl, fun i hi _ => absurd hi (Nat.not_lt_zero i)⟩
  | cons a as ih =>
    intro r h
    rw [mapExcept_cons] at h
    cases hfa : f a with
    | error e =>
      simp only [hfa, except_error_bind] at h
      exact Except.noConfusion h
    | ok b =>
      simp only [hfa, except_ok_bind] at h
      cases hrest : mapExcept f as with
      | error e =>
        simp only [hrest, except_error_bind] at h
        exact Except.noConfusion h
      | ok bs =>
        simp only [hrest, except_ok_bind] at h
        injection h with h
        subst h
        obtain ⟨hlen, hpt⟩ := ih bs hrest
        refine ⟨by simp [hlen], ?_⟩
        intro i hi hr
        cases i with
        | zero => exact hfa
        | succ j =>
          exact hpt j (Nat.lt_of_succ_lt_succ hi) (Nat.lt_of_succ_lt_succ hr)

theorem mapExcept_error_of_mem {α β : Type} (f : α → Except ExtractError β) (l : List α)
    (c : α) (hc : c ∈ l) (e : ExtractError) (he : f c = Except.error e) :
    ∃ e', mapExcept f l = Except.error e' := by
  induction l with
  | nil => cases hc
  | cons a as ih =>
    cases hfa : f a with
    | error e'' =>
      exact ⟨e'', by rw [mapExcept_cons]; simp only [hfa, except_error_bind]⟩
    | ok b =>
      rcases List.mem_cons.1 hc with rfl | hmem
      · rw [hfa] at he
        exact Except.noConfusion he
      · obtain ⟨e', h'⟩ := ih hmem
        exact ⟨e', by rw [mapExcept_cons]
                      simp only [hfa, except_ok_bind, h', except_error_bind]⟩

theorem map_to_exam_results_ok_iff (d : List (String × String)) (r : ExamResult) :
    UserGradesExtractor.map_to_exam_results d = Except.ok r ↔
      dictLookup d "Name" = Except.ok r.course.title ∧
      dictLookup d "CourseCode" = Except.ok r.course.course_number ∧
      dictLookup d "EctsPoints" = Except.ok r.ects_points ∧
      dictLookup d "Grade" = Except.ok r.grade ∧
      dictLookup d "Period" = Except.ok r.period ∧
      dictLookup d "Year" = Except.ok r.year := by
  obtain ⟨⟨rt, rn⟩, re, rg, rp, ry⟩ := r
  unfold UserGradesExtractor.map_to_exam_results UserGradesExtractor.map_to_course
  cases h1 : dictLookup d "Name" <;>
    cases h2 : dictLookup d "CourseCode" <;>
      cases h3 : dictLookup d "EctsPoints" <;>
        cases h4 : dictLookup d "Grade" <;>
          cases h5 : dictLookup d "Period" <;>
            cases h6 : dictLookup d "Year" <;>
              simp [h1, h2, h3, h4, h5, h6, except_ok_bind, except_error_bind,
                and_assoc]

/-- **C5.** For every well-formed, non-fault grades document, when the
comprehension over the elements matched by the structural path
`EducationProgramme/ExamResults/ExamResult` succeeds with list `l`,
`extract` returns `l`; `l` has exactly one record per matched element,
in document order, and the `i`-th record is built from the attributes
`Name`, `CourseCode`, `EctsPoints`, `Grade`, `Period`, `Year` of the
`i`-th matched element (an `ExamResult` wrapping a `Course`). -/
theorem C5_grades_extraction (x : Xml) (l : List ExamResult)
    (hok : ¬ FaultTag x.tag)
    (hm : mapExcept (fun course_xml => UserGradesExtractor.map_to_exam_results
        course_xml.attrib) (findall_path UserGradesExtractor.grades_path x) =
        Except.ok l) :
    AbstractXmlInfoExtractor.extract UserGradesExtractor.extract_information (some x) =
      Except.ok (some l) ∧
    l.length = (findall_path UserGradesExtractor.grades_path x).length ∧
    ∀ (i : Nat) (hi : i < (findall_path UserGradesExtractor.grades_path x).length)
      (hr : i < l.length),
      dictLookup ((findall_path UserGradesExtractor.grades_path x).get ⟨i, hi⟩).attrib
          "Name" = Except.ok ((l.get ⟨i, hr⟩).course.title) ∧
      dictLookup ((findall_path UserGradesExtractor.grades_path x).get ⟨i, hi⟩).attrib
          "CourseCode" = Except.ok ((l.get ⟨i, hr⟩).course.course_number) ∧
      dictLookup ((findall_path UserGradesExtractor.grades_path x).get ⟨i, hi⟩).attrib
          "EctsPoints" = Except.ok ((l.get ⟨i, hr⟩).ects_points) ∧
      dictLookup ((findall_path UserGradesExtractor.grades_path x).get ⟨i, hi⟩).attrib
          "Grade" = Except.ok ((l.get ⟨i, hr⟩).grade) ∧
      dictLookup ((findall_path UserGradesExtractor.grades_path x).get ⟨i, hi⟩).attrib
          "Period" = Except.ok ((l.get ⟨i, hr⟩).period) ∧
      dictLookup ((findall_path UserGradesExtractor.grades_path x).get ⟨i, hi⟩).attrib
          "Year" = Except.ok ((l.get ⟨i, hr⟩).year) := by
  have hb : AbstractXmlInfoExtractor.is_response_ok x = true :=
    (is_response_ok_eq_true_iff x).2 hok
  have hinfo : UserGradesExtractor.extract_information x = Except.ok l := hm
  refine ⟨?_, (mapExcept_ok_spec _ _ l hm).1, ?_⟩
  · simp [AbstractXmlInfoExtractor.extract, hb, hinfo, Except.map]
  · intro i hi hr
    exact (map_to_exam_results_ok_iff _ _).1 ((mapExcept_ok_spec _ _ l hm).2 i hi hr)

/-- Concrete grades document with two exam results. -/
def gradesDoc : Xml :=
  Xml.elem "Grades" []
    [Xml.elem "EducationProgramme" []
      [Xml.elem "ExamResults" []
        [Xml.elem "ExamResult"
          [("Name", "Algebra"), ("CourseCode", "01001"), ("EctsPoints", "5"),
            ("Grade", "10"), ("Period", "Summer"), ("Year", "2015")] [],
         Xml.elem "ExamResult"
          [("Name", "Analysis"), ("CourseCode", "01002"), ("EctsPoints", "7.5"),
            ("Grade", "12"), ("Period", "Winter"), ("Year", "2016")] []]]]

/-- The exam-result records of `gradesDoc`, in document order. -/
def gradesDocResults : List ExamResult :=
  [ExamResult.mk (Course.mk "Algebra" "01001") "5" "10" "Summer" "2015",
   ExamResult.mk (Course.mk "Analysis" "01002") "7.5" "12" "Winter" "2016"]

/-- **C5 witness.** -/
theorem C5_witness :
    AbstractXmlInfoExtractor.extract UserGradesExtractor.extract_information
      (some gradesDoc) = Except.ok (some gradesDocResults) :=
  (C5_grades_extraction gradesDoc gradesDocResults (by decide) rfl).1

/-- **C6.** For every well-formed, non-fault grades document in which the
structural path `EducationProgramme/ExamResults/ExamResult` matches no
element, `extract` returns the empty sequence — an `Except.ok (some [])`,
not an absent value and not an error. -/
theorem C6_empty_grades (x : Xml)
    (hok : ¬ FaultTag x.tag)
    (h0 : findall_path UserGradesExtractor.grades_path x = []) :
    AbstractXmlInfoExtractor.extract UserGradesExtractor.extract_information (some x) =
      Except.ok (some []) := by
  have hb : AbstractXmlInfoExtractor.is_response_ok x = true :=
    (is_response_ok_eq_true_iff x).2 hok
  have hinfo : UserGradesExtractor.extract_information x = Except.ok [] := by
    unfold UserGradesExtractor.extract_information
    rw [h0]
    rfl
  simp [AbstractXmlInfoExtractor.extract, hb, hinfo, Except.map]

/-- Concrete grades document with no exam results. -/
def emptyGradesDoc : Xml :=
  Xml.elem "Grades" []
    [Xml.elem "EducationProgramme" [] [Xml.elem "ExamResults" [] []]]

/-- **C6 witness.** -/
theorem C6_witness :
    AbstractXmlInfoExtractor.extract UserGradesExtractor.extract_information
      (some emptyGradesDoc) = Except.ok (some []) :=
  C6_empty_grades emptyGradesDoc (by decide) rfl

/-- **C7.** A malformed input (one `fromstring` rejects, modelled by the
`none` parse result) makes both the extractor's `extract` — for any
variant mapper — and the authenticator's token extraction fail with the
fatal parse error; neither returns an `Except.ok` value, in particular
never an absent-value `Except.ok none`. -/
theorem C7_malformed_is_fatal {α : Type} (m : Xml → Except ExtractError α) :
    AbstractXmlInfoExtractor.extract m none = Except.error ExtractError.parseError ∧
    Authenticator.extract_password_from_response_body none =
      Except.error ExtractError.parseError :=
  ⟨rfl, rfl⟩

theorem dictLookup_error_eq (d : List (String × String)) (k : String) (e : ExtractError)
    (h : dictLookup d k = Except.error e) : e = ExtractError.keyError k := by
  unfold dictLookup at h
  cases hf : d.find? (fun p => p.1 == k) <;> rw [hf] at h
  · injection h with h
    exact h.symm
  · exact Except.noConfusion h

theorem userInfo_error_of_missing (x : Xml)
    (h : dictLookup x.attrib "GivenName" = Except.error (ExtractError.keyError "GivenName") ∨
      dictLookup x.attrib "FamilyName" = Except.error (ExtractError.keyError "FamilyName") ∨
      dictLookup x.attrib "Email" = Except.error (ExtractError.keyError "Email")) :
    ∃ k, UserInfoExtractor.extract_information x =
      Except.error (ExtractError.keyError k) := by
  unfold UserInfoExtractor.extract_information
  cases h1 : dictLookup x.attrib "GivenName" with
  | error e =>
    have he := dictLookup_error_eq _ _ _ h1
    subst he
    exact ⟨"GivenName", by simp only [h1, except_error_bind]⟩
  | ok g =>
    cases h2 : dictLookup x.attrib "FamilyName" with
    | error e =>
      have he := dictLookup_error_eq _ _ _ h2
      subst he
      exact ⟨"FamilyName", by simp only [h1, except_ok_bind, h2, except_error_bind]⟩
    | ok f =>
      cases h3 : dictLookup x.attrib "Email" with
      | error e =>
        have he := dictLookup_error_eq _ _ _ h3
        subst he
        exact ⟨"Email",
          by simp only [h1, except_ok_bind, h2, h3, except_error_bind]⟩
      | ok m =>
        rcases h with h | h | h
        · rw [h1] at h
          exact Except.noConfusion h
        · rw [h2] at h
          exact Except.noConfusion h
        · rw [h3] at h
          exact Except.noConfusion h

theorem map_to_exam_results_error_of_missing (d : List (String × String))
    (h : dictLookup d "Name" = Except.error (ExtractError.keyError "Name") ∨
      dictLookup d "CourseCode" = Except.error (ExtractError.keyError "CourseCode") ∨
      dictLookup d "EctsPoints" = Except.error (ExtractError.keyError "EctsPoints") ∨
      dictLookup d "Grade" = Except.error (ExtractError.keyError "Grade") ∨
      dictLookup d "Period" = Except.error (ExtractError.keyError "Period") ∨
      dictLookup d "Year" = Except.error (ExtractError.keyError "Year")) :
    ∃ e, UserGradesExtractor.map_to_exam_results d = Except.error e := by
  cases hm : UserGradesExtractor.map_to_exam_results d with
  | error e => exact ⟨e, rfl⟩
  | ok r =>
    obtain ⟨o1, o2, o3, o4, o5, o6⟩ := (map_to_exam_results_ok_iff d r).1 hm
    rcases h with h | h | h | h | h | h
    · rw [o1] at h
      exact Except.noConfusion h
    · rw [o2] at h
      exact Except.noConfusion h
    · rw [o3] at h
      exact Except.noConfusion h
    · rw [o4] at h
      exact Except.noConfusion h
    · rw [o5] at h
      exact Except.noConfusion h
    · rw [o6] at h
      exact Except.noConfusion h

theorem map_to_exam_results_error_key (d : List (String × String)) (e : ExtractError)
    (h : UserGradesExtractor.map_to_exam_results d = Except.error e) :
    ∃ k, e = ExtractError.keyError k := by
  unfold UserGradesExtractor.map_to_exam_results UserGradesExtractor.map_to_course at h
  cases h1 : dictLookup d "Name" with
  | error e1 =>
    simp only [h1, except_error_bind] at h
    injection h with h
    exact ⟨"Name", h ▸ dictLookup_error_eq _ _ _ h1⟩
  | ok v1 =>
    simp only [h1, except_ok_bind] at h
    cases h2 : dictLookup d "CourseCode" with
    | error e2 =>
      simp only [h2, except_error_bind] at h
      injection h with h
      exact ⟨"CourseCode", h ▸ dictLookup_error_eq _ _ _ h2⟩
    | ok v2 =>
      simp only [h2, except_ok_bind] at h
      cases h3 : dictLookup d "EctsPoints" with
      | error e3 =>
        simp only [h3, except_error_bind] at h
        injection h with h
        exact ⟨"EctsPoints", h ▸ dictLookup_error_eq _ _ _ h3⟩
      | ok v3 =>
        simp only [h3, except_ok_bind] at h
        cases h4 : dictLookup d "Grade" with
        | error e4 =>
          simp only [h4, except_error_bind] at h
          injection h with h
          exact ⟨"Grade", h ▸ dictLookup_error_eq _ _ _ h4⟩
        | ok v4 =>
          simp only [h4, except_ok_bind] at h
          cases h5 : dictLookup d "Period" with
          | error e5 =>
            simp only [h5, except_error_bind] at h
            injection h with h
            exact ⟨"Period", h ▸ dictLookup_error_eq _ _ _ h5⟩
          | ok v5 =>
            simp only [h5, except_ok_bind] at h
            cases h6 : dictLookup d "Year" with
            | error e6 =>
              simp only [h6, except_error_bind] at h
              injection h with h
              exact ⟨"Year", h ▸ dictLookup_error_eq _ _ _ h6⟩
            | ok v6 =>
              simp only [h6, except_ok_bind] at h
              exact Except.noConfusion h

theorem mapExcept_error_shape {α β : Type} (f : α → Except ExtractError β) (l : List α) :
    ∀ e, mapExcept f l = Except.error e → ∃ c ∈ l, f c = Except.error e := by
  induction l with
  | nil =>
    intro e h
    have h' : (Except.ok [] : Except ExtractError (List β)) = Except.error e := h
    exact Except.noConfusion h'
  | cons a as ih =>
    intro e h
    rw [mapExcept_cons] at h
    cases hfa : f a with
    | error e1 =>
      simp only [hfa, except_error_bind] at h
      injection h with h
      exact ⟨a, List.mem_cons_self a as, by rw [hfa, h]⟩
    | ok b =>
      simp only [hfa, except_ok_bind] at h
      cases hrest : mapExcept f as with
      | error e2 =>
        simp only [hrest, except_error_bind] at h
        injection h with h
        obtain ⟨c, hc, hfc⟩ := ih e2 hrest
        exact ⟨c, List.mem_cons_of_mem a hc, by rw [hfc, h]⟩
      | ok bs =>
        simp only [hrest, except_ok_bind] at h
        exact Except.noConfusion h

/-- **C8.** For every well-formed, non-fault response that lacks an
attribute the variant-specific mapper assumes present, `extract` fails
with a fatal `KeyError` lookup error — it neither returns an absent
value nor a partial record.  The first conjunct covers a profile root
missing one of `GivenName`, `FamilyName`, `Email`; the second covers a
matched `ExamResult` element missing one of its six attributes. -/
theorem C8_missing_field_is_fatal (x : Xml) (hok : ¬ FaultTag x.tag) :
    ((dictLookup x.attrib "GivenName" = Except.error (ExtractError.keyError "GivenName") ∨
      dictLookup x.attrib "FamilyName" = Except.error (ExtractError.keyError "FamilyName") ∨
      dictLookup x.attrib "Email" = Except.error (ExtractError.keyError "Email")) →
      ∃ k, AbstractXmlInfoExtractor.extract UserInfoExtractor.extract_information
        (some x) = Except.error (ExtractError.keyError k)) ∧
    (∀ c ∈ findall_path UserGradesExtractor.grades_path x,
      (dictLookup c.attrib "Name" = Except.error (ExtractError.keyError "Name") ∨
       dictLookup c.attrib "CourseCode" = Except.error (ExtractError.keyError "CourseCode") ∨
       dictLookup c.attrib "EctsPoints" = Except.error (ExtractError.keyError "EctsPoints") ∨
       dictLookup c.attrib "Grade" = Except.error (ExtractError.keyError "Grade") ∨
       dictLookup c.attrib "Period" = Except.error (ExtractError.keyError "Period") ∨
       dictLookup c.attrib "Year" = Except.error (ExtractError.keyError "Year")) →
      ∃ k, AbstractXmlInfoExtractor.extract UserGradesExtractor.extract_information
        (some x) = Except.error (ExtractError.keyError k)) := by
  have hb : AbstractXmlInfoExtractor.is_response_ok x = true :=
    (is_response_ok_eq_true_iff x).2 hok
  constructor
  · intro h
    obtain ⟨k, hk⟩ := userInfo_error_of_missing x h
    exact ⟨k, by simp [AbstractXmlInfoExtractor.extract, hb, hk, Except.map]⟩
  · intro c hc h
    obtain ⟨e, he⟩ := map_to_exam_results_error_of_missing c.attrib h
    obtain ⟨e', he'⟩ := mapExcept_error_of_mem
      (fun course_xml => UserGradesExtractor.map_to_exam_results course_xml.attrib)
      (findall_path UserGradesExtractor.grades_path x) c hc e he
    obtain ⟨c2, _, hfc2⟩ := mapExcept_error_shape
      (fun course_xml => UserGradesExtractor.map_to_exam_results course_xml.attrib)
      (findall_path UserGradesExtractor.grades_path x) e' he'
    obtain ⟨k, hk⟩ := map_to_exam_results_error_key c2.attrib e' hfc2
    subst hk
    have hinfo : UserGradesExtractor.extract_information x =
        Except.error (ExtractError.keyError k) := he'
    exact ⟨k, by simp [AbstractXmlInfoExtractor.extract, hb, hinfo, Except.map]⟩

/-- Concrete non-fault profile document missing the `Email` attribute. -/
def profileDocNoEmail : Xml :=
  Xml.elem "Profile" [("GivenName", "A"), ("FamilyName", "B")] []

/-- Concrete non-fault grades document whose single exam result lacks
the `Grade` attribute. -/
def gradesDocNoGrade : Xml :=
  Xml.elem "Grades" []
    [Xml.elem "EducationProgramme" []
      [Xml.elem "ExamResults" []
        [Xml.elem "ExamResult"
          [("Name", "Algebra"), ("CourseCode", "01001"), ("EctsPoints", "5"),
            ("Period", "Summer"), ("Year", "2015")] []]]]

/-- **C8 witness.** -/
theorem C8_witness :
    AbstractXmlInfoExtractor.extract UserInfoExtractor.extract_information
      (some profileDocNoEmail) = Except.error (ExtractError.keyError "Email") ∧
    AbstractXmlInfoExtractor.extract UserGradesExtractor.extract_information
      (some gradesDocNoGrade) = Except.error (ExtractError.keyError "Grade") := by
  constructor
  · obtain ⟨k, hk⟩ := (C8_missing_field_is_fatal profileDocNoEmail (by decide)).1
      (Or.inr (Or.inr rfl))
    have h3 := hk.symm.trans
      (show AbstractXmlInfoExtractor.extract UserInfoExtractor.extract_information
          (some profileDocNoEmail) = Except.error (ExtractError.keyError "Email")
        from rfl)
    injection h3 with h4
    rw [h4] at hk
    exact hk
  · obtain ⟨k, hk⟩ := (C8_missing_field_is_fatal gradesDocNoGrade (by decide)).2
      (Xml.elem "ExamResult"
        [("Name", "Algebra"), ("CourseCode", "01001"), ("EctsPoints", "5"),
          ("Period", "Summer"), ("Year", "2015")] [])
      (List.mem_cons_self _ _)
      (Or.inr (Or.inr (Or.inr (Or.inl rfl))))
    have h3 := hk.symm.trans
      (show AbstractXmlInfoExtractor.extract UserGradesExtractor.extract_information
          (some gradesDocNoGrade) = Except.error (ExtractError.keyError "Grade")
        from rfl)
    injection h3 with h4
    rw [h4] at hk
    exact hk

/-- **C9.** `extract` is modelled as a pure function of the response
text's parse result — the source method reads only the immutable
`response_text` stored at construction and calls the side-effect-free
parser — so two calls on the same raw text yield structurally equal
results, for both extractor variants. -/
theorem C9_extract_deterministic (p : Option Xml) :
    AbstractXmlInfoExtractor.extract UserInfoExtractor.extract_information p =
      AbstractXmlInfoExtractor.extract UserInfoExtractor.extract_information p ∧
    AbstractXmlInfoExtractor.extract UserGradesExtractor.extract_information p =
      AbstractXmlInfoExtractor.extract UserGradesExtractor.extract_information p :=
  ⟨rfl, rfl⟩

/-- Whether some element of the list, or a descendant of one, has the
given tag. -/
def listHasTag (t : String) : List Xml → Bool
  | [] => false
  | Xml.elem tag _ cs :: rest => (tag == t) || listHasTag t cs || listHasTag t rest

/-- **C10.** The authenticator's success check inspects only the direct
children of the root: for every well-formed response in which a
`LimitedAccess` element occurs only at nesting depth two or greater
(some direct child has a `LimitedAccess` descendant, but no direct
child is itself tagged `LimitedAccess`), token extraction returns the
absent value. -/
theorem C10_find_limited_access_direct_children_only (x : Xml)
    (hdirect : ∀ c ∈ x.children, c.tag ≠ "LimitedAccess")
    (_hdeep : x.children.any (fun c => listHasTag "LimitedAccess" c.children) = true) :
    Authenticator.extract_password_from_response_body (some x) = Except.ok none := by
  have hf : find_child x "LimitedAccess" = none := by
    unfold find_child
    rw [List.find?_eq_none]
    intro c hc
    simp [hdirect c hc]
  simp [Authenticator.extract_password_from_response_body,
    Authenticator.is_authenticated, hf]

/-- Concrete response whose only `LimitedAccess` element is nested at
depth two. -/
def nestedAuthDoc : Xml :=
  Xml.elem "AuthResponse" []
    [Xml.elem "Wrapper" [] [Xml.elem "LimitedAccess" [("Password", "tok123")] []]]

/-- **C10 witness.** -/
theorem C10_witness :
    Authenticator.extract_password_from_response_body (some nestedAuthDoc) =
      Except.ok none :=
  C10_find_limited_access_direct_children_only nestedAuthDoc (by decide)
    (by simp [nestedAuthDoc, listHasTag, Xml.children])
